import Mathlib

/-!
Verification development for the `googlevoice` Python client library
(sources: `googlevoice/util.py`, `googlevoice/voice.py`).

The Python code is shallowly embedded: each relevant Python function or
method becomes an executable Lean definition over explicit state; the
HTTP service, the regex searches and the JSON decoder are oracles passed
in as parameters; fallible operations return `Except`/`Option`.
-/

set_option maxHeartbeats 1000000

/-! ## `util.py` — `XMLParser`

`XMLParser` keeps a single mutable slot `attr` plus two accumulator
strings `json` and `html`.  The expat callbacks are `start_element`,
`end_element` and `char_data`; we model an expat run as a fold of these
handlers over a list of parse events.  (`voice` and `datafunc` play no
role in the parsing state and are omitted; `name` is kept because the
`folder` property uses it.) -/

structure XMLParser where
  attr : Option String
  json : String
  html : String
  name : String
deriving Repr, DecidableEq

def XMLParser.init (name : String) : XMLParser :=
  { attr := none, json := "", html := "", name := name }

/-- `XMLParser.start_element`: `if name in ('json', 'html'): self.attr = name`. -/
def start_element (p : XMLParser) (nm : String) : XMLParser :=
  if nm = "json" ∨ nm = "html" then { p with attr := some nm } else p

/-- `XMLParser.end_element`: `self.attr = None` (for every closing tag). -/
def end_element (p : XMLParser) (_nm : String) : XMLParser :=
  { p with attr := none }

/-- `XMLParser.char_data`: `if self.attr and data: setattr(self, self.attr,
getattr(self, self.attr) + data)`.  `attr` is only ever set to `"json"` or
`"html"` by `start_element`, so the `setattr` targets one of the two
accumulators. -/
def char_data (p : XMLParser) (data : String) : XMLParser :=
  match p.attr with
  | none => p
  | some a =>
      if data = "" then p
      else if a = "json" then { p with json := p.json ++ data }
      else if a = "html" then { p with html := p.html ++ data }
      else p

/-- One expat callback event. -/
inductive XMLEvent where
  | start (nm : String)
  | stop (nm : String)
  | chars (data : String)
deriving Repr, DecidableEq

def xmlStep (p : XMLParser) : XMLEvent → XMLParser
  | .start nm => start_element p nm
  | .stop nm => end_element p nm
  | .chars d => char_data p d

/-- Running the expat parse: fold the three handlers over the event list. -/
def runEvents (p : XMLParser) (es : List XMLEvent) : XMLParser :=
  es.foldl xmlStep p

/-- Spec reading of the extraction claim: character data counts for tag
`tag` exactly when the element stack at that point contains an element
named `tag` ("text occurring while inside an element named `tag`").
The stack is threaded explicitly: a start event pushes, a stop event
pops. -/
def specExtract (tag : String) : List String → List XMLEvent → String
  | _, [] => ""
  | st, .start nm :: es => specExtract tag (nm :: st) es
  | st, .stop _ :: es => specExtract tag st.tail es
  | st, .chars d :: es => (if tag ∈ st then d else "") ++ specExtract tag st es

/-- Event sequences in which `json`/`html` elements contain no child
elements: after a start tag named `json` or `html`, only character data
may occur until the next stop tag.  The `Bool` argument is the mode:
`true` while inside such an extraction element. -/
def flatEvents : Bool → List XMLEvent → Bool
  | _, [] => true
  | false, .start nm :: es =>
      if nm = "json" ∨ nm = "html" then flatEvents true es else flatEvents false es
  | false, .stop _ :: es => flatEvents false es
  | false, .chars _ :: es => flatEvents false es
  | true, .start _ :: _ => false
  | true, .stop _ :: es => flatEvents false es
  | true, .chars _ :: es => flatEvents true es

/-- Relation between the parser's `attr` slot and the spec-side element
stack, maintained along a flat event sequence. -/
inductive ExtState : XMLParser → List String → Prop
  | outside (p : XMLParser) (st : List String) :
      p.attr = none → "json" ∉ st → "html" ∉ st → ExtState p st
  | inside (p : XMLParser) (st : List String) (tag : String) (rest : List String) :
      (tag = "json" ∨ tag = "html") → p.attr = some tag → st = tag :: rest →
      "json" ∉ rest → "html" ∉ rest → ExtState p st

/-- A well-formed feed document whose `json` element has a child element:
`<response><json>a<b></b>d</json></response>` as expat events. -/
def nestedFeedDoc : List XMLEvent :=
  [.start "response", .start "json", .chars "a", .start "b", .stop "b",
   .chars "d", .stop "json", .stop "response"]

/-- A feed document of the shape the service actually returns:
`json` and `html` elements hold only character data. -/
def flatFeedDoc : List XMLEvent :=
  [.start "response", .start "json", .chars "payload", .stop "json",
   .start "html", .chars "markup", .stop "html", .stop "response"]

/-! ## `util.py` — `Folder`, `XMLParser.data`, `XMLParser.folder`, `XMLParser.__call__`

`json.loads` is an oracle `loads : String → Option J` (`none` models a
deserialization exception, which `data` turns into `JSONError`, here the
`Except.error ()` value).  `Folder.__init__(voice, name, data)` stores the
page name and the dict built from the parsed JSON value (`voice` omitted). -/

structure Folder (J : Type) where
  name : String
  contents : J
deriving Repr, DecidableEq

/-- `XMLParser.data`: `try: return json.loads(self.json) except Exception:
raise JSONError(...)`. -/
def XMLParser.data {J : Type} (loads : String → Option J) (p : XMLParser) :
    Except Unit J :=
  match loads p.json with
  | some v => Except.ok v
  | none => Except.error ()

/-- `XMLParser.folder`: `Folder(self.voice, self.name, self.data)`. -/
def XMLParser.folder {J : Type} (loads : String → Option J) (p : XMLParser) :
    Except Unit (Folder J) :=
  (XMLParser.data loads p).map (fun v => { name := p.name, contents := v })

/-- `XMLParser.__call__`: reset `json` and `html`, run the expat parse over
the feed events, return `self.folder` (a `JSONError` raised by the `data`
property propagates out of the call). -/
def XMLParser.callRun {J : Type} (loads : String → Option J) (p : XMLParser)
    (es : List XMLEvent) : Except Unit (Folder J) :=
  XMLParser.folder loads (runEvents { p with json := "", html := "" } es)

def natLoads : String → Option Nat := fun s => if s = "" then some 0 else none

/-! ## `util.py` — `AttrDict`

A Python dict is modelled as an association list with unique keys;
`self[attr]` / `attr in self` become `List.lookup`. -/

/-- `AttrDict.__getattr__`: `if attr in self: return self[attr]; return None`.
Called only when normal attribute lookup fails; always returns (never
raises), `none` modelling Python `None`. -/
def attrdict_getattr {V : Type} (d : List (String × V)) (a : String) : Option V :=
  if (d.lookup a).isSome then d.lookup a else none

/-! ## `voice.py` — `Voice.__smsAuth` retry loop

Attempts are numbered from 1; `invalid k = true` models "attempt `k`'s
response contains `The code you entered didn&#39;t verify.`".  The loop is

    content = oathtoolAuth(...)        -- attempt 1, try_count = 1
    while invalid(content) and try_count < 5:
        try_count += 1
        content = oathtoolAuth(...)    -- attempt try_count

`smsAuthLoop invalid t` returns the number of the final attempt (whose
response content the Python code returns); totality of the definition is
the loop's termination. -/

def smsAuthLoop (invalid : Nat → Bool) (tryCount : Nat) : Nat :=
  if h : invalid tryCount = true ∧ tryCount < 5 then smsAuthLoop invalid (tryCount + 1)
  else tryCount
termination_by 5 - tryCount
decreasing_by
  obtain ⟨-, h2⟩ := h
  omega

def smsAuth (invalid : Nat → Bool) : Nat := smsAuthLoop invalid 1

/-! ## `voice.py` — session state: `special`, `contacts`, `login`

The instance attribute `_special` is modelled as `Option (Option String)`:
`none` = attribute absent (never set or deleted by `logout`), `some v` =
attribute set to `v`, where `v = none` models Python `None` (failed regex
extraction).  Retrieval functions return `(value, new state, number of
HTTP requests performed)`. -/

structure VoiceState where
  _special : Option (Option String)
deriving Repr, DecidableEq

/-- Python truthiness of an `Option String` value (`None` and `''` falsy). -/
def truthyOptStr : Option String → Bool
  | some s => s != ""
  | none => false

/-- Python truthiness of `getattr(self, '_special', None)`. -/
def truthyAttr : Option (Option String) → Bool
  | some v => truthyOptStr v
  | none => false

/-- `Voice.special` property: return the stored `_special` when truthy;
otherwise GET the inbox page (one request), run the `_rnr_se` regex on it
(oracle `inboxToken`; `none` = no match, the `AttributeError` branch that
sets `sp = None`), store the result and return it. -/
def specialGet (inboxToken : Option String) (st : VoiceState) :
    Option String × VoiceState × Nat :=
  if truthyAttr st._special then (st._special.getD none, st, 0)
  else (inboxToken, { st with _special := some inboxToken }, 1)

/-- `Voice.contacts` property: `if hasattr(self, '_contacts'): return
self._contacts`; otherwise fetch the contacts feed (one request), store
it in `_contacts` and return it.  The `_contacts` attribute is the
`Option C` argument; the freshly fetched folder is the oracle `fetched`. -/
def contactsGet {C : Type} (fetched : C) (cached : Option C) : C × Option C × Nat :=
  match cached with
  | some c => (c, some c, 0)
  | none => (fetched, some fetched, 1)

/-- Formalization of C2: every access to `special` and to `contacts`
performs a fresh retrieval (one HTTP request) and returns the freshly
retrieved value, never a previously stored one. -/
def noCachingClaim : Prop :=
  (∀ (tok : Option String) (st : VoiceState),
      (specialGet tok st).2.2 = 1 ∧ (specialGet tok st).1 = tok) ∧
  (∀ (fetched : Nat) (cached : Option Nat),
      (contactsGet fetched cached).2.2 = 1 ∧ (contactsGet fetched cached).1 = fetched)

/-! `Voice.login` state machine (C3, C7).  Oracles: the regex extraction
of the hidden `gxf` form token from the login page (`none` = no match,
i.e. `.group(1)` raises AttributeError); whether the `login_post` result
URL starts with the SMSAUTH prefix; the regex extraction of `smsToken`
from the second-factor response (`none` = no match, the caught
AttributeError that raises LoginError); the `_rnr_se` token on the inbox
page; and the number of requests `__smsAuth` makes. -/

structure LoginEnv where
  gxf : Option String
  redirectsToSmsAuth : Bool
  smsToken : Option String
  inboxToken : Option String
  smsAuthRequests : Nat
deriving Repr, DecidableEq

inductive LoginResult where
  | success
  | loginError
  | attributeError
deriving Repr, DecidableEq

/-- Tail of `Voice.login`: `try: assert self.special except (AssertionError,
AttributeError): raise util.LoginError; return self`. -/
def finishLogin (env : LoginEnv) (st : VoiceState) (reqs : Nat) :
    LoginResult × VoiceState × Nat :=
  let r := specialGet env.inboxToken st
  if truthyOptStr r.1 then (.success, r.2.1, reqs + r.2.2)
  else (.loginError, r.2.1, reqs + r.2.2)

/-- `Voice.login`: early return on a truthy `_special`; otherwise GET the
login page and extract `gxf` (an extraction failure raises an uncaught
AttributeError), POST the credentials, optionally run the SMS second
factor (failure of the `smsToken` extraction raises LoginError), and
finally `assert self.special`. -/
def loginRun (env : LoginEnv) (st : VoiceState) : LoginResult × VoiceState × Nat :=
  if truthyAttr st._special then (.success, st, 0)
  else
    match env.gxf with
    | none => (.attributeError, st, 1)
    | some _ =>
        if env.redirectsToSmsAuth then
          match env.smsToken with
          | none => (.loginError, st, 2 + env.smsAuthRequests)
          | some _ => finishLogin env st (3 + env.smsAuthRequests)
        else finishLogin env st 2

/-! ## `voice.py` — action endpoints (C6)

Request dicts are association lists; `dict.update` replaces the binding
for a key.  The JSON of the service's response is the oracle
`resp : String → Option Bool` giving, per key, the truthiness of its
value (`none` = key absent).  Errors: `ValidationError`, the
`assert self.special` failure in `__do_special_page`, and the
`NotImplementedError` of `__messages_post`. -/

def dictUpdate (d : List (String × String)) (k v : String) :
    List (String × String) :=
  d.filter (fun kv => kv.1 != k) ++ [(k, v)]

def dictUpdateAll (d : List (String × String)) (kvs : List (String × String)) :
    List (String × String) :=
  kvs.foldl (fun acc kv => dictUpdate acc kv.1 kv.2) d

inductive GVErr where
  | validation
  | assertionFailed
  | notImplemented
deriving Repr, DecidableEq

/-- `Voice.__do_special_page`: `assert self.special`, then add
`'_rnr_se': self.special` to the outbound data and POST it.  Returns the
request data actually sent. -/
def do_special_page (sp : Option String) (data : List (String × String)) :
    Except GVErr (List (String × String)) :=
  match sp with
  | some s =>
      if s != "" then Except.ok (dictUpdate data "_rnr_se" s)
      else Except.error GVErr.assertionFailed
  | none => Except.error GVErr.assertionFailed

/-- `util.validate_response`: `assert 'ok' in response and response['ok']`,
re-raised as ValidationError. -/
def validate_response (resp : String → Option Bool) : Except GVErr Unit :=
  match resp "ok" with
  | some true => Except.ok ()
  | _ => Except.error GVErr.validation

/-- `Voice.__validate_special_page`: `data.update(kwargs)`, post through
`__do_special_page`, then `load_and_validate` the JSON response.  The
`ok` value is the request data that was sent. -/
def validate_special_page (sp : Option String)
    (data kwargs : List (String × String)) (resp : String → Option Bool) :
    Except GVErr (List (String × String)) :=
  match do_special_page sp (dictUpdateAll data kwargs) with
  | Except.ok payload =>
      match validate_response resp with
      | Except.ok _ => Except.ok payload
      | Except.error e => Except.error e
  | Except.error e => Except.error e

/-- `Voice.__messages_post`: exactly one message id is required; set
`data['messages']` and post through `__do_special_page`.  The service's
response (`_resp`) is never validated — mirroring the source, which
discards it. -/
def messages_post (sp : Option String) (msgs : List String)
    (data : List (String × String)) (_resp : String → Option Bool) :
    Except GVErr (List (String × String)) :=
  match msgs with
  | [m] => do_special_page sp (dictUpdate data "messages" m)
  | _ => Except.error GVErr.notImplemented

/-- `Voice.send_sms`: `__validate_special_page('sms', {'phoneNumber': …,
'text': …})`. -/
def send_sms (sp : Option String) (phoneNumber text : String)
    (resp : String → Option Bool) : Except GVErr (List (String × String)) :=
  validate_special_page sp [("phoneNumber", phoneNumber), ("text", text)] [] resp

/-- `Voice.delete`: `__messages_post('delete', msg, trash=trash)`. -/
def delete_action (sp : Option String) (msg trash : String)
    (resp : String → Option Bool) : Except GVErr (List (String × String)) :=
  messages_post sp [msg] [("trash", trash)] resp

/-! ## `voice.py` — `Voice.download` (C10) -/

structure HttpResp where
  statusOk : Bool
  content : String
deriving Repr, DecidableEq

/-- Argument to `Voice.download`: a `util.Message` instance (reduced to
its `id`) or an SHA1 identifier string. -/
inductive MsgRef where
  | message (id : String)
  | sha (s : String)
deriving Repr, DecidableEq

def msgId : MsgRef → String
  | .message i => i
  | .sha s => s

/-- `os.path.join` for a relative second component. -/
def pathJoin (a b : String) : String :=
  if a = "" then b
  else if a.endsWith "/" then a ++ b
  else a ++ "/" ++ b

/-- `Voice.download`: reduce a `Message` to its id, default `adir` to the
current directory, GET `settings.DOWNLOAD + msg` and `raise_for_status`;
any exception there becomes DownloadError (`Except.error ()`), raised
before any file is opened; on success the file `<adir>/<id>.mp3` is
written with the response content and its path returned.  `respOutcome =
none` models the request itself raising; `statusOk = false` models an
HTTP error status. -/
def download (msg : MsgRef) (adir : Option String) (cwd : String)
    (respOutcome : Option HttpResp) : Except Unit (String × String) :=
  let m := msgId msg
  let ad := adir.getD cwd
  match respOutcome with
  | none => Except.error ()
  | some r =>
      if r.statusOk then Except.ok (pathJoin ad (m ++ ".mp3"), r.content)
      else Except.error ()

/-! ## Theorems -/

theorem runEvents_cons (p : XMLParser) (e : XMLEvent) (es : List XMLEvent) :
    runEvents p (e :: es) = runEvents (xmlStep p e) es := rfl

theorem runEvents_nil (p : XMLParser) : runEvents p [] = p := rfl

/-- Core agreement lemma for the extraction claim: along any event
sequence in which `json`/`html` elements have no child elements, the
parser's accumulators agree with the stack-based spec reading. -/
theorem runAgree : ∀ (es : List XMLEvent) (p : XMLParser) (st : List String),
    ExtState p st → flatEvents p.attr.isSome es = true →
    (runEvents p es).json = p.json ++ specExtract "json" st es ∧
    (runEvents p es).html = p.html ++ specExtract "html" st es := by
  intro es
  induction es with
  | nil =>
      intro p st _ _
      simp [runEvents_nil, specExtract, String.append_empty]
  | cons e es ih =>
      intro p st hstate hflat
      cases hstate with
      | outside hattr hj hh =>
          rw [hattr] at hflat
          cases e with
          | start nm =>
              by_cases hnm : nm = "json" ∨ nm = "html"
              · have hflat' : flatEvents true es = true := by
                  simpa [flatEvents, hnm] using hflat
                have hstep : xmlStep p (.start nm) = { p with attr := some nm } := by
                  simp [xmlStep, start_element, hnm]
                have hst : ExtState { p with attr := some nm } (nm :: st) :=
                  ExtState.inside _ _ nm st hnm rfl rfl hj hh
                have hrec := ih { p with attr := some nm } (nm :: st) hst
                  (by simpa using hflat')
                rw [runEvents_cons, hstep]
                simpa [specExtract] using hrec
              · have hnmj : nm ≠ "json" := fun h => hnm (Or.inl h)
                have hnmh : nm ≠ "html" := fun h => hnm (Or.inr h)
                have hflat' : flatEvents false es = true := by
                  simpa [flatEvents, hnm] using hflat
                have hstep : xmlStep p (.start nm) = p := by
                  simp [xmlStep, start_element, hnm]
                have hj' : "json" ∉ nm :: st := by
                  intro hmem
                  rcases List.mem_cons.mp hmem with h | h
                  · exact hnmj h.symm
                  · exact hj h
                have hh' : "html" ∉ nm :: st := by
                  intro hmem
                  rcases List.mem_cons.mp hmem with h | h
                  · exact hnmh h.symm
                  · exact hh h
                have hst : ExtState p (nm :: st) := ExtState.outside _ _ hattr hj' hh'
                have hrec := ih p (nm :: st) hst (by rw [hattr]; exact hflat')
                rw [runEvents_cons, hstep]
                simpa [specExtract] using hrec
          | stop nm =>
              have hflat' : flatEvents false es = true := by
                simpa [flatEvents] using hflat
              have hstep : xmlStep p (.stop nm) = { p with attr := none } := rfl
              have hst : ExtState { p with attr := none } st.tail :=
                ExtState.outside _ _ rfl
                  (fun hm => hj (List.mem_of_mem_tail hm))
                  (fun hm => hh (List.mem_of_mem_tail hm))
              have hrec := ih _ _ hst (by simpa using hflat')
              rw [runEvents_cons, hstep]
              simpa [specExtract] using hrec
          | chars d =>
              have hflat' : flatEvents false es = true := by
                simpa [flatEvents] using hflat
              have hstep : xmlStep p (.chars d) = p := by
                simp [xmlStep, char_data, hattr]
              have hst : ExtState p st := ExtState.outside _ _ hattr hj hh
              have hrec := ih p st hst (by rw [hattr]; exact hflat')
              rw [runEvents_cons, hstep]
              simpa [specExtract, hj, hh, String.empty_append] using hrec
      | inside tag rest htag hattr hstq hjr hhr =>
          subst hstq
          rw [hattr] at hflat
          cases e with
          | start nm =>
              simp [flatEvents] at hflat
          | stop nm =>
              have hflat' : flatEvents false es = true := by
                simpa [flatEvents] using hflat
              have hstep : xmlStep p (.stop nm) = { p with attr := none } := rfl
              have hst : ExtState { p with attr := none } rest :=
                ExtState.outside _ _ rfl hjr hhr
              have hrec := ih _ _ hst (by simpa using hflat')
              rw [runEvents_cons, hstep]
              simpa [specExtract] using hrec
          | chars d =>
              have hflat' : flatEvents true es = true := by
                simpa [flatEvents] using hflat
              by_cases hd : d = ""
              · subst hd
                have hstep : xmlStep p (.chars "") = p := by
                  simp [xmlStep, char_data, hattr]
                have hst : ExtState p (tag :: rest) :=
                  ExtState.inside _ _ tag rest htag hattr rfl hjr hhr
                have hrec := ih p (tag :: rest) hst (by rw [hattr]; exact hflat')
                rw [runEvents_cons, hstep]
                simpa [specExtract, String.empty_append] using hrec
              · rcases htag with htj | hth
                · subst htj
                  have hstep : xmlStep p (.chars d) = { p with json := p.json ++ d } := by
                    simp [xmlStep, char_data, hattr, hd]
                  have hst : ExtState { p with json := p.json ++ d } ("json" :: rest) :=
                    ExtState.inside _ _ "json" rest (Or.inl rfl) hattr rfl hjr hhr
                  have hrec := ih { p with json := p.json ++ d } ("json" :: rest) hst
                    (by show flatEvents (Option.isSome p.attr) es = true
                        rw [hattr]; exact hflat')
                  have hspecj : specExtract "json" ("json" :: rest) (XMLEvent.chars d :: es)
                      = d ++ specExtract "json" ("json" :: rest) es := by
                    simp [specExtract]
                  have hspech : specExtract "html" ("json" :: rest) (XMLEvent.chars d :: es)
                      = specExtract "html" ("json" :: rest) es := by
                    simp [specExtract, List.mem_cons, hhr, String.empty_append]
                  constructor
                  · rw [runEvents_cons, hstep, hrec.1, hspecj]
                    show p.json ++ d ++ _ = _
                    rw [String.append_assoc]
                  · rw [runEvents_cons, hstep, hrec.2, hspech]
                · subst hth
                  have hstep : xmlStep p (.chars d) = { p with html := p.html ++ d } := by
                    simp [xmlStep, char_data, hattr, hd]
                  have hst : ExtState { p with html := p.html ++ d } ("html" :: rest) :=
                    ExtState.inside _ _ "html" rest (Or.inr rfl) hattr rfl hjr hhr
                  have hrec := ih { p with html := p.html ++ d } ("html" :: rest) hst
                    (by show flatEvents (Option.isSome p.attr) es = true
                        rw [hattr]; exact hflat')
                  have hspech : specExtract "html" ("html" :: rest) (XMLEvent.chars d :: es)
                      = d ++ specExtract "html" ("html" :: rest) es := by
                    simp [specExtract]
                  have hspecj : specExtract "json" ("html" :: rest) (XMLEvent.chars d :: es)
                      = specExtract "json" ("html" :: rest) es := by
                    simp [specExtract, List.mem_cons, hjr, String.empty_append]
                  constructor
                  · rw [runEvents_cons, hstep, hrec.1, hspecj]
                  · rw [runEvents_cons, hstep, hrec.2, hspech]
                    show p.html ++ d ++ _ = _
                    rw [String.append_assoc]

/-- C1 counterexample: on `nestedFeedDoc` the character datum `d` occurs
inside the element named `json` (the stack-based reading collects `ad`),
but the parser drops it because the nested `</b>` cleared `attr`; the
code's `json` accumulator ends as `a`, not `ad`. -/
theorem xmlparser_inside_claim_refuted :
    (runEvents (XMLParser.init "inbox") nestedFeedDoc).json = "a" ∧
    specExtract "json" [] nestedFeedDoc = "ad" ∧
    (runEvents (XMLParser.init "inbox") nestedFeedDoc).json ≠
      specExtract "json" [] nestedFeedDoc := by
  refine ⟨by decide, by decide, by decide⟩

/-- C1 (amended): extraction is keyed to the parser's single `attr` slot,
which a start tag named `json`/`html` sets and which ANY end tag clears;
hence on every feed document whose `json` and `html` elements contain no
child elements (`flatEvents`), character data inside a `json` element is
appended to `json`, character data inside an `html` element is appended
to `html`, character data anywhere else changes neither accumulator, and
a start tag with any other name never activates extraction
(`start_element` leaves the parser unchanged). -/
theorem xmlparser_two_tag_extraction (es : List XMLEvent) (nm0 : String)
    (h : flatEvents false es = true) :
    (runEvents (XMLParser.init nm0) es).json = specExtract "json" [] es ∧
    (runEvents (XMLParser.init nm0) es).html = specExtract "html" [] es ∧
    (∀ (p : XMLParser) (t : String), t ≠ "json" → t ≠ "html" → start_element p t = p) := by
  have h0 : ExtState (XMLParser.init nm0) [] :=
    ExtState.outside _ _ rfl (by simp) (by simp)
  have hrec := runAgree es (XMLParser.init nm0) [] h0 (by simpa [XMLParser.init] using h)
  refine ⟨?_, ?_, ?_⟩
  · have := hrec.1
    simpa [XMLParser.init, String.empty_append] using this
  · have := hrec.2
    simpa [XMLParser.init, String.empty_append] using this
  · intro p t htj hth
    simp [start_element, htj, hth]

/-- C1 witness: the amended theorem applied to the concrete flat feed
document `flatFeedDoc`. -/
theorem xmlparser_two_tag_extraction_witness :
    flatEvents false flatFeedDoc = true ∧
    (runEvents (XMLParser.init "inbox") flatFeedDoc).json =
      specExtract "json" [] flatFeedDoc ∧
    (runEvents (XMLParser.init "inbox") flatFeedDoc).html =
      specExtract "html" [] flatFeedDoc :=
  ⟨by decide, (xmlparser_two_tag_extraction flatFeedDoc "inbox" (by decide)).1,
    (xmlparser_two_tag_extraction flatFeedDoc "inbox" (by decide)).2.1⟩

theorem xmlStep_name (p : XMLParser) (e : XMLEvent) : (xmlStep p e).name = p.name := by
  cases e with
  | start nm =>
      show (start_element p nm).name = p.name
      unfold start_element
      split <;> rfl
  | stop nm => rfl
  | chars d =>
      show (char_data p d).name = p.name
      unfold char_data
      split
      · rfl
      · split
        · rfl
        · split
          · rfl
          · split <;> rfl

theorem runEvents_name (p : XMLParser) (es : List XMLEvent) :
    (runEvents p es).name = p.name := by
  induction es generalizing p with
  | nil => rfl
  | cons e es ih => rw [runEvents_cons, ih, xmlStep_name]

/-- C5: `data` raises `JSONError` exactly when JSON deserialization of the
accumulated `json` string fails; on success it returns the parsed value,
and the `Folder` returned by calling the parser is built from exactly that
value under the parser's page name. -/
theorem xmlparser_data_folder {J : Type} (loads : String → Option J)
    (p : XMLParser) (es : List XMLEvent) :
    (XMLParser.data loads p = Except.error () ↔ loads p.json = none) ∧
    (∀ v, loads p.json = some v → XMLParser.data loads p = Except.ok v) ∧
    (∀ v, loads (runEvents { p with json := "", html := "" } es).json = some v →
      XMLParser.callRun loads p es = Except.ok { name := p.name, contents := v }) := by
  refine ⟨?_, ?_, ?_⟩
  · cases hl : loads p.json <;> simp [XMLParser.data, hl]
  · intro v hv
    simp [XMLParser.data, hv]
  · intro v hv
    have hn : (runEvents { p with json := "", html := "" } es).name = p.name := by
      rw [runEvents_name]
    simp [XMLParser.callRun, XMLParser.folder, XMLParser.data, hv, hn, Except.map]

/-- C5 witness: the theorem applied to a concrete decoder and parser. -/
theorem xmlparser_data_folder_witness :
    natLoads (XMLParser.init "voicemail").json = some 0 ∧
    XMLParser.data natLoads (XMLParser.init "voicemail") = Except.ok 0 ∧
    XMLParser.callRun natLoads (XMLParser.init "voicemail") [] =
      Except.ok { name := "voicemail", contents := 0 } :=
  ⟨by decide,
    (xmlparser_data_folder natLoads (XMLParser.init "voicemail") []).2.1 0 (by decide),
    (xmlparser_data_folder natLoads (XMLParser.init "voicemail") []).2.2 0 (by decide)⟩

/-- C9: attribute access on an `AttrDict` for a name not found by normal
lookup returns `d[a]` when `a` is a key and `None` otherwise; it is total
(no `AttributeError`). -/
theorem attrdict_getattr_total {V : Type} (d : List (String × V)) (a : String) :
    attrdict_getattr d a = d.lookup a ∧
    (∀ v, d.lookup a = some v → attrdict_getattr d a = some v) ∧
    (d.lookup a = none → attrdict_getattr d a = none) := by
  refine ⟨?_, fun v hv => ?_, fun hn => ?_⟩
  · cases hl : d.lookup a <;> simp [attrdict_getattr, hl]
  · simp [attrdict_getattr, hv]
  · simp [attrdict_getattr, hn]

/-- C9 witness: the theorem applied to a concrete dict, both for a present
and for a missing key. -/
theorem attrdict_getattr_total_witness :
    ([("id", 3)] : List (String × Nat)).lookup "id" = some 3 ∧
    attrdict_getattr [("id", 3)] "id" = some 3 ∧
    ([("id", 3)] : List (String × Nat)).lookup "isTrash" = none ∧
    attrdict_getattr [("id", 3)] "isTrash" = none :=
  ⟨by decide, (attrdict_getattr_total [("id", 3)] "id").2.1 3 (by decide),
    by decide, (attrdict_getattr_total [("id", 3)] "isTrash").2.2 (by decide)⟩

theorem smsAuthLoop_spec (invalid : Nat → Bool) :
    ∀ (n t : Nat), 5 - t ≤ n → 1 ≤ t → t ≤ 5 →
      t ≤ smsAuthLoop invalid t ∧ smsAuthLoop invalid t ≤ 5 ∧
      (∀ k, t ≤ k → k < smsAuthLoop invalid t → invalid k = true) ∧
      (invalid (smsAuthLoop invalid t) = true → smsAuthLoop invalid t = 5) := by
  intro n
  induction n with
  | zero =>
      intro t hn h1 h5
      have ht : t = 5 := by omega
      subst ht
      have hc : ¬(invalid 5 = true ∧ 5 < 5) := fun hx => by omega
      rw [smsAuthLoop, dif_neg hc]
      refine ⟨le_refl _, le_refl _, ?_, fun _ => rfl⟩
      intro k hk hk'
      omega
  | succ n ih =>
      intro t hn h1 h5
      by_cases hc : invalid t = true ∧ t < 5
      · rw [smsAuthLoop, dif_pos hc]
        have hrec := ih (t + 1) (by omega) (by omega) (by omega)
        refine ⟨?_, hrec.2.1, ?_, hrec.2.2.2⟩
        · have := hrec.1
          omega
        · intro k hk hk'
          by_cases hkt : k = t
          · subst hkt
            exact hc.1
          · exact hrec.2.2.1 k (by omega) hk'
      · rw [smsAuthLoop, dif_neg hc]
        refine ⟨le_refl _, h5, ?_, ?_⟩
        · intro k hk hk'
          omega
        · intro hinv
          by_cases ht5 : t < 5
          · exact absurd ⟨hinv, ht5⟩ hc
          · omega

/-- C4: with an smsKey supplied, the single retry loop makes at least one
and at most 5 total oathtool attempts; every attempt before the final one
saw the invalid-code marker; and if the final response still carries the
marker the counter has reached its bound 5 (the loop never spins).  The
returned value is the index of the last attempt, i.e. the last response
content is returned.  Termination is witnessed by `smsAuthLoop` being a
total function. -/
theorem smsauth_retry_bounded (invalid : Nat → Bool) :
    1 ≤ smsAuth invalid ∧ smsAuth invalid ≤ 5 ∧
    (∀ k, 1 ≤ k → k < smsAuth invalid → invalid k = true) ∧
    (invalid (smsAuth invalid) = true → smsAuth invalid = 5) := by
  have h := smsAuthLoop_spec invalid 5 1 (by omega) (by omega) (by omega)
  simpa [smsAuth] using h

/-- C4 witness: the theorem applied to the concrete schedule in which
every attempt fails verification. -/
theorem smsauth_retry_bounded_witness :
    smsAuth (fun _ => true) ≤ 5 ∧ 1 ≤ smsAuth (fun _ => true) :=
  ⟨(smsauth_retry_bounded (fun _ => true)).2.1, (smsauth_retry_bounded (fun _ => true)).1⟩

/-- C2 counterexample: with `_special` already set to a truthy token,
`special` performs zero HTTP requests and returns the stored token rather
than the freshly extractable one (and likewise `contacts` returns the
stored folder); the claimed absence of caching is false. -/
theorem no_caching_refuted : ¬ noCachingClaim := by
  intro h
  have h1 := (h.1 (some "fresh") { _special := some (some "tok") }).1
  simp [specialGet, truthyAttr, truthyOptStr] at h1

/-- C2 (amended): `special` and `contacts` memoize.  A truthy stored
`_special` is returned as-is with no HTTP request; otherwise one request
is made and its extraction stored.  A present `_contacts` is returned
as-is with no request; otherwise one fetch is made and stored. -/
theorem special_contacts_memoize {C : Type} (tok : Option String)
    (st : VoiceState) (fetched cached : C) :
    (truthyAttr st._special = true →
      specialGet tok st = (st._special.getD none, st, 0)) ∧
    (truthyAttr st._special = false →
      specialGet tok st = (tok, { st with _special := some tok }, 1)) ∧
    contactsGet fetched (some cached) = (cached, some cached, 0) ∧
    contactsGet fetched (none : Option C) = (fetched, some fetched, 1) := by
  refine ⟨fun h => ?_, fun h => ?_, rfl, rfl⟩
  · simp [specialGet, h]
  · simp [specialGet, h]

/-- C2 witness: the amended theorem applied at concrete states, cached
and uncached. -/
theorem special_contacts_memoize_witness :
    truthyAttr (VoiceState.mk (some (some "tok")))._special = true ∧
    specialGet (some "fresh") { _special := some (some "tok") } =
      (some "tok", { _special := some (some "tok") }, 0) ∧
    truthyAttr (VoiceState.mk none)._special = false ∧
    specialGet (some "fresh") { _special := none } =
      (some "fresh", { _special := some (some "fresh") }, 1) :=
  ⟨by decide,
    (@special_contacts_memoize Nat (some "fresh") { _special := some (some "tok") } 0 0).1
      (by decide),
    by decide,
    (@special_contacts_memoize Nat (some "fresh") { _special := none } 0 0).2.1
      (by decide)⟩

/-- C7: `login` on an instance whose `_special` is truthy returns `self`
immediately: result is success, zero HTTP requests, state unchanged. -/
theorem login_idempotent (env : LoginEnv) (st : VoiceState)
    (h : truthyAttr st._special = true) :
    loginRun env st = (.success, st, 0) := by
  simp [loginRun, h]

/-- C7 witness: the theorem applied to a concrete logged-in state. -/
theorem login_idempotent_witness :
    truthyAttr (VoiceState.mk (some (some "tok")))._special = true ∧
    loginRun { gxf := none, redirectsToSmsAuth := false, smsToken := none,
               inboxToken := none, smsAuthRequests := 0 }
        { _special := some (some "tok") } =
      (.success, { _special := some (some "tok") }, 0) :=
  ⟨by decide,
    login_idempotent
      { gxf := none, redirectsToSmsAuth := false, smsToken := none,
        inboxToken := none, smsAuthRequests := 0 }
      { _special := some (some "tok") } (by decide)⟩

/-- C3 counterexample: a fresh instance against a login page carrying no
hidden `gxf` input: `re.search(...).group(1)` raises an AttributeError
that `login` does not catch, so `login` neither raises LoginError nor
returns `self` — refuting the claimed dichotomy. -/
theorem login_gxf_attribute_error :
    truthyAttr (VoiceState.mk none)._special = false ∧
    (loginRun { gxf := none, redirectsToSmsAuth := false, smsToken := none,
                inboxToken := some "tok", smsAuthRequests := 0 }
        { _special := none }).1 = .attributeError ∧
    (loginRun { gxf := none, redirectsToSmsAuth := false, smsToken := none,
                inboxToken := some "tok", smsAuthRequests := 0 }
        { _special := none }).1 ≠ .loginError ∧
    (loginRun { gxf := none, redirectsToSmsAuth := false, smsToken := none,
                inboxToken := some "tok", smsAuthRequests := 0 }
        { _special := none }).1 ≠ .success := by
  refine ⟨by decide, by decide, by decide, by decide⟩

/-- C3 (amended): for an instance not already holding a session token,
and provided the hidden `gxf` form-token extraction succeeds (a failure
there propagates an AttributeError instead), `login` raises LoginError
iff either the second factor is requested and the `smsToken` extraction
fails, or the special session token extracted from the inbox page is
falsy; otherwise it returns `self`. -/
theorem login_error_conditions (env : LoginEnv) (st : VoiceState)
    (hns : truthyAttr st._special = false) (hg : env.gxf.isSome = true) :
    ((loginRun env st).1 = .loginError ↔
      (env.redirectsToSmsAuth = true ∧ env.smsToken = none) ∨
        truthyOptStr env.inboxToken = false) ∧
    ((loginRun env st).1 ≠ .loginError → (loginRun env st).1 = .success) := by
  obtain ⟨g, hgq⟩ := Option.isSome_iff_exists.mp hg
  have hfin : ∀ reqs, (finishLogin env st reqs).1 =
      (if truthyOptStr env.inboxToken then LoginResult.success else .loginError) := by
    intro reqs
    cases hi : truthyOptStr env.inboxToken <;>
      simp [finishLogin, specialGet, hns, hi]
  by_cases hr : env.redirectsToSmsAuth = true
  · cases htk : env.smsToken with
    | none =>
        simp [loginRun, hns, hgq, hr, htk]
    | some tk =>
        cases hi : truthyOptStr env.inboxToken <;>
          simp [loginRun, hns, hgq, hr, htk, hfin, hi]
  · have hr' : env.redirectsToSmsAuth = false := by
      cases hrv : env.redirectsToSmsAuth
      · rfl
      · exact absurd hrv hr
    cases hi : truthyOptStr env.inboxToken <;>
      simp [loginRun, hns, hgq, hr', hfin, hi]

/-- C3 witness: the amended theorem applied to a concrete environment in
which login succeeds. -/
theorem login_error_conditions_witness :
    truthyAttr (VoiceState.mk none)._special = false ∧
    (Option.isSome (some "g" : Option String)) = true ∧
    ((loginRun { gxf := some "g", redirectsToSmsAuth := false, smsToken := none,
                 inboxToken := some "tok", smsAuthRequests := 0 }
        { _special := none }).1 ≠ .loginError →
      (loginRun { gxf := some "g", redirectsToSmsAuth := false, smsToken := none,
                  inboxToken := some "tok", smsAuthRequests := 0 }
          { _special := none }).1 = .success) :=
  ⟨by decide, by decide,
    (login_error_conditions
      { gxf := some "g", redirectsToSmsAuth := false, smsToken := none,
        inboxToken := some "tok", smsAuthRequests := 0 }
      { _special := none } (by decide) (by decide)).2⟩

theorem lookup_dictUpdate (d : List (String × String)) (k v : String) :
    (dictUpdate d k v).lookup k = some v := by
  induction d with
  | nil => simp [dictUpdate, List.lookup]
  | cons a tl ih =>
      by_cases hk : a.1 = k
      · simpa [dictUpdate, List.filter_cons, hk] using ih
      · have hb : (a.1 != k) = true := bne_iff_ne.mpr hk
        have hk2 : (k == a.1) = false := beq_eq_false_iff_ne.mpr (Ne.symm hk)
        simpa [dictUpdate, List.filter_cons, hb, List.lookup, hk2] using ih

/-- C6 counterexample: `delete` (a message action) with an active session
and a service response whose JSON has no `ok` field completes without
raising ValidationError: `__messages_post` sends through
`__do_special_page` and never validates the response, so the claimed
"ValidationError exactly when the response lacks a truthy `ok`" fails for
the archive/delete/star/mark endpoints. -/
theorem messages_post_skips_validation :
    delete_action (some "tok") "m1" "1" (fun _ => none) =
      Except.ok [("trash", "1"), ("messages", "m1"), ("_rnr_se", "tok")] ∧
    (fun _ => (none : Option Bool)) "ok" ≠ some true ∧
    delete_action (some "tok") "m1" "1" (fun _ => none) ≠
      Except.error GVErr.validation := by
  refine ⟨rfl, by simp, by simp [delete_action, messages_post, do_special_page, dictUpdate]⟩

/-- C6 (amended): every action endpoint sends the caller's data augmented
with the `_rnr_se` session token and asserts a truthy `special` first;
the endpoints routed through `__validate_special_page` (call, cancel,
send SMS, phone enable/disable) raise ValidationError exactly when the
response JSON lacks a truthy `ok`, while the message actions
(archive/delete/star/mark, routed through `__messages_post`) never
validate the response and never raise ValidationError. -/
theorem special_page_validation (sp : String) (data kwargs : List (String × String))
    (m : String) (resp : String → Option Bool) (hsp : sp ≠ "") :
    (validate_special_page (some sp) data kwargs resp =
        Except.ok (dictUpdate (dictUpdateAll data kwargs) "_rnr_se" sp) ↔
      resp "ok" = some true) ∧
    (resp "ok" ≠ some true →
      validate_special_page (some sp) data kwargs resp =
        Except.error GVErr.validation) ∧
    (dictUpdate (dictUpdateAll data kwargs) "_rnr_se" sp).lookup "_rnr_se" = some sp ∧
    messages_post (some sp) [m] data resp =
      Except.ok (dictUpdate (dictUpdate data "messages" m) "_rnr_se" sp) ∧
    (dictUpdate (dictUpdate data "messages" m) "_rnr_se" sp).lookup "_rnr_se" = some sp ∧
    messages_post (some sp) [m] data resp ≠ Except.error GVErr.validation ∧
    (∀ d, do_special_page none d = Except.error GVErr.assertionFailed) ∧
    (∀ d, do_special_page (some "") d = Except.error GVErr.assertionFailed) := by
  have hb : (sp != "") = true := bne_iff_ne.mpr hsp
  refine ⟨?_, ?_, lookup_dictUpdate _ _ _, ?_, lookup_dictUpdate _ _ _, ?_, fun d => rfl, fun d => ?_⟩
  · cases hok : resp "ok" with
    | none => simp [validate_special_page, do_special_page, hb, validate_response, hok]
    | some b =>
        cases b <;>
          simp [validate_special_page, do_special_page, hb, validate_response, hok]
  · intro hne
    cases hok : resp "ok" with
    | none => simp [validate_special_page, do_special_page, hb, validate_response, hok]
    | some b =>
        cases b with
        | false => simp [validate_special_page, do_special_page, hb, validate_response, hok]
        | true => exact absurd hok hne
  · simp [messages_post, do_special_page, hb]
  · simp [messages_post, do_special_page, hb]
  · simp [do_special_page]

/-- C6 witness: the amended theorem applied to a concrete session token,
request and response. -/
theorem special_page_validation_witness :
    ("tok" : String) ≠ "" ∧
    (fun k => if k = "ok" then some true else none) "ok" = some true ∧
    validate_special_page (some "tok") [("phoneNumber", "+15551234567"), ("text", "hi")] []
        (fun k => if k = "ok" then some true else none) =
      Except.ok (dictUpdate (dictUpdateAll [("phoneNumber", "+15551234567"), ("text", "hi")] [])
        "_rnr_se" "tok") :=
  ⟨by decide, by decide,
    (special_page_validation "tok" [("phoneNumber", "+15551234567"), ("text", "hi")] [] "m1"
      (fun k => if k = "ok" then some true else none) (by decide)).1.mpr (by decide)⟩

/-- C10: `download` raises DownloadError exactly when the HTTP request
raises or the response carries an error status, producing no file write;
otherwise it writes the response content to `adir` (defaulting to the
current working directory) joined with `<message id>.mp3` and returns
that path; a `Message` argument is first reduced to its id. -/
theorem download_spec (msg : MsgRef) (adir : Option String) (cwd : String)
    (respOutcome : Option HttpResp) :
    (download msg adir cwd respOutcome = Except.error () ↔
      respOutcome = none ∨ ∃ r, respOutcome = some r ∧ r.statusOk = false) ∧
    (∀ r, respOutcome = some r → r.statusOk = true →
      download msg adir cwd respOutcome =
        Except.ok (pathJoin (adir.getD cwd) (msgId msg ++ ".mp3"), r.content)) ∧
    download (MsgRef.message (msgId msg)) adir cwd respOutcome =
      download msg adir cwd respOutcome := by
  refine ⟨?_, ?_, ?_⟩
  · cases respOutcome with
    | none => simp [download]
    | some r => cases hs : r.statusOk <;> simp [download, hs]
  · intro r hr hs
    subst hr
    simp [download, hs]
  · cases msg <;> rfl

/-- C10 witness: the theorem applied to a concrete successful request. -/
theorem download_spec_witness :
    (some (HttpResp.mk true "bytes") = some (HttpResp.mk true "bytes")) ∧
    (HttpResp.mk true "bytes").statusOk = true ∧
    download (MsgRef.sha "abc123") none "/home/user" (some (HttpResp.mk true "bytes")) =
      Except.ok (pathJoin ((none : Option String).getD "/home/user")
        (msgId (MsgRef.sha "abc123") ++ ".mp3"), "bytes") :=
  ⟨rfl, rfl,
    (download_spec (MsgRef.sha "abc123") none "/home/user"
      (some (HttpResp.mk true "bytes"))).2.1 (HttpResp.mk true "bytes") rfl rfl⟩
